import Mathlib

/-!
Verification of the chart-template ingest/cache/sync engine
(`pkg/microservice/aslan/core/templatestore/service/chart.go`).

The Go functions are shallowly embedded as pure Lean functions.  Stateful
collaborators (source puller, tier persistence, metadata store) are passed
in as an explicit environment of outcome-returning functions, and every
externally visible mutation performed by an operation is recorded in an
explicit effect trace, so that claims about "no write happened" become
statements about the trace.
-/

namespace Zadig

/-- Decidable equality for `Except`, needed to `decide` concrete runs. -/
instance {α β : Type} [DecidableEq α] [DecidableEq β] : DecidableEq (Except α β) := fun a b =>
  match a, b with
  | .error x, .error y =>
    if h : x = y then .isTrue (by rw [h]) else .isFalse (by intro hh; cases hh; exact h rfl)
  | .ok x, .ok y =>
    if h : x = y then .isTrue (by rw [h]) else .isFalse (by intro hh; cases hh; exact h rfl)
  | .error _, .ok _ => .isFalse (by intro hh; cases hh)
  | .ok _, .error _ => .isFalse (by intro hh; cases hh)

/-- A template variable: `commonmodes.Variable` with fields `Key`, `Value`;
the Go zero value of `Value` is the empty string. -/
structure Variable where
  key : String
  value : String
deriving DecidableEq

/-- The metadata record `models.Chart` written to / read from the metadata
store (mongodb chart collection). -/
structure Chart where
  name : String
  owner : String
  repo : String
  path : String
  branch : String
  codeHostID : Int
  sha1 : String
  /-- the `Variables` field; `variables` is a Lean keyword, hence `vars` -/
  vars : List Variable
deriving DecidableEq

/-- The source descriptor `fs.DownloadFromSourceArgs` as used by `chart.go`
(fields `CodehostID`, `Owner`, `Repo`, `Path`, `Branch`). -/
structure DownloadFromSourceArgs where
  codehostID : Int
  owner : String
  repo : String
  path : String
  branch : String
deriving DecidableEq

/-- An artifact tree pulled from source: relative path to file content. -/
abbrev FileTree := List (String × String)

/-- `filepath.Base` from Go's standard library, used to normalize an empty
template name from `args.Path`. -/
def filepathBase (p : String) : String :=
  if p = "" then (".")
  else
    let rev := p.data.reverse.dropWhile (fun c => c = '/')
    if rev = [] then ("/")
    else String.mk (rev.takeWhile (fun c => c ≠ '/')).reverse

/-- Externally visible mutations and accesses performed by the operations. -/
inductive Effect where
  /-- `fs.DownloadFilesFromSource` was invoked (a source pull). -/
  | pull
  /-- `fs.SaveAndUploadFiles` succeeded: both the local cache tier and the
  durable (S3) tier now hold `t`. -/
  | writeTiers (t : FileTree)
  /-- `fs.SaveAndUploadFiles` failed: a tier write was attempted and may
  have left incomplete content behind.  No claim inspects tier content
  after a failed persist, so `applyEffect` leaves the state unchanged. -/
  | writeTiersFail
  /-- `parseTemplateVariables` ran: the values file was (pre)loaded and
  scanned for placeholder variables (a read, plus a possible preload). -/
  | parseVars
  /-- `mongodb.NewChartColl().Create c` succeeded. -/
  | metaCreate (c : Chart)
  /-- `mongodb.NewChartColl().Update c` succeeded. -/
  | metaUpdate (c : Chart)
  /-- `mongodb.NewChartColl().Delete` succeeded. -/
  | metaDelete
  /-- `fs.DeleteArchivedFileFromS3` succeeded. -/
  | durableDelete
deriving DecidableEq

/-- Is the effect a write to the metadata store? -/
def isMetaWrite : Effect → Bool
  | .metaCreate _ => true
  | .metaUpdate _ => true
  | .metaDelete => true
  | _ => false

/-- Is the effect a write to the local cache or the durable store? -/
def isTierWrite : Effect → Bool
  | .writeTiers _ => true
  | .writeTiersFail => true
  | .durableDelete => true
  | _ => false

/-- The observable state of the three storage locations for one template
name: the metadata record, the local cache tier and the durable tier. -/
structure Store where
  record : Option Chart
  localTier : Option FileTree
  durableTier : Option FileTree
deriving DecidableEq

/-- How a single effect changes the storage state. -/
def applyEffect (s : Store) : Effect → Store
  | .pull => s
  | .writeTiers t => { s with localTier := some t, durableTier := some t }
  | .writeTiersFail => s
  | .parseVars => s
  | .metaCreate c => { s with record := some c }
  | .metaUpdate c => { s with record := some c }
  | .metaDelete => { s with record := none }
  | .durableDelete => { s with durableTier := none }

/-- Replay a whole effect trace on a storage state. -/
def applyEffects (s : Store) (l : List Effect) : Store :=
  l.foldl applyEffect s

/-! ## Variable extraction

`variableExtractRegexp = regexp.MustCompile("\\$(.*?)\\$")` together with
`FindAllStringSubmatch(content, -1)` scans the text left to right for
non-overlapping matches of `$ ... $`.  The inner `.*?` is non-greedy and
`.` matches any character except a newline, so a match starting at a `$`
captures the (dollar-free, newline-free) text up to the next `$`; scanning
resumes after the closing delimiter.  `findClose` looks for the closing
delimiter after an opening one, `scanVars` is the full scan. -/

/-- After an opening `$`, split off the shortest newline-free inner text
followed by a closing `$`; return the capture and the remaining text. -/
def findClose : List Char → Option (List Char × List Char)
  | [] => none
  | c :: cs =>
    if c = '$' then some ([], cs)
    else if c = '\n' then none
    else
      match findClose cs with
      | some (inner, rest) => some (c :: inner, rest)
      | none => none

theorem findClose_length :
    ∀ {cs : List Char} {i r : List Char}, findClose cs = some (i, r) → r.length < cs.length := by
  intro cs
  induction cs with
  | nil => intro i r h; simp [findClose] at h
  | cons c cs ih =>
    intro i r h
    by_cases hc : c = '$'
    · simp [findClose, hc] at h
      simp [h.2.symm]
    · by_cases hn : c = '\n'
      · simp [findClose, hc, hn] at h
      · simp only [findClose, if_neg hc, if_neg hn] at h
        cases hm : findClose cs with
        | none => rw [hm] at h; cases h
        | some p =>
          rw [hm] at h
          cases h
          exact Nat.lt_succ_of_lt (ih hm)

/-- Characterization of `findClose`: it returns exactly the decomposition
with a dollar-free, newline-free inner text before the next `$`. -/
theorem findClose_iff (cs : List Char) : ∀ (inner rest : List Char),
    findClose cs = some (inner, rest) ↔
      (cs = inner ++ '$' :: rest ∧ '$' ∉ inner ∧ '\n' ∉ inner) := by
  induction cs with
  | nil =>
    intro inner rest
    constructor
    · intro h; simp [findClose] at h
    · rintro ⟨h, -, -⟩; exact absurd h (by simp)
  | cons c cs ih =>
    intro inner rest
    by_cases hc : c = '$'
    · subst hc
      simp only [findClose, if_pos rfl]
      cases inner with
      | nil => simp [eq_comm]
      | cons a as =>
        constructor
        · intro h; cases h
        · rintro ⟨h1, h2, -⟩
          exfalso
          simp only [List.cons_append, List.cons.injEq] at h1
          exact h2 (h1.1 ▸ List.mem_cons_self a as)
    · by_cases hn : c = '\n'
      · subst hn
        have hfc : findClose ('\n' :: cs) = none := by
          simp [findClose, hc]
        rw [hfc]
        constructor
        · intro h; cases h
        · rintro ⟨h1, -, h3⟩
          exfalso
          cases inner with
          | nil =>
            simp only [List.nil_append, List.cons.injEq] at h1
            exact hc h1.1
          | cons a as =>
            simp only [List.cons_append, List.cons.injEq] at h1
            exact h3 (h1.1 ▸ List.mem_cons_self a as)
      · simp only [findClose, if_neg hc, if_neg hn]
        cases inner with
        | nil =>
          constructor
          · intro h
            cases hm : findClose cs with
            | none => rw [hm] at h; cases h
            | some p => rw [hm] at h; cases h
          · rintro ⟨h1, -, -⟩
            simp only [List.nil_append, List.cons.injEq] at h1
            exact absurd h1.1 hc
        | cons a as =>
          constructor
          · intro h
            cases hm : findClose cs with
            | none => rw [hm] at h; cases h
            | some p =>
              rw [hm] at h
              obtain ⟨i0, r0⟩ := p
              cases h
              obtain ⟨hcs, hd, hnl⟩ := (ih as rest).mp hm
              refine ⟨by simp [hcs], ?_, ?_⟩
              · intro hmem
                rcases List.mem_cons.mp hmem with h | h
                · exact hc h.symm
                · exact hd h
              · intro hmem
                rcases List.mem_cons.mp hmem with h | h
                · exact hn h.symm
                · exact hnl h
          · rintro ⟨h1, h2, h3⟩
            simp only [List.cons_append, List.cons.injEq] at h1
            have has : findClose cs = some (as, rest) := by
              refine (ih as rest).mpr ⟨h1.2, ?_, ?_⟩
              · exact fun hmem => h2 (List.mem_cons_of_mem a hmem)
              · exact fun hmem => h3 (List.mem_cons_of_mem a hmem)
            rw [has, h1.1]

/-- The full left-to-right scan of `FindAllStringSubmatch(content, -1)`:
the list of inner captures of the non-overlapping matches, in text order. -/
def scanVars : List Char → List String
  | [] => []
  | c :: cs =>
    if c = '$' then
      match h : findClose cs with
      | some (inner, rest) => String.mk inner :: scanVars rest
      | none => scanVars cs
    else scanVars cs
termination_by cs => cs.length
decreasing_by
  · exact Nat.lt_succ_of_lt (findClose_length h)
  · exact Nat.lt_succ_self _
  · exact Nat.lt_succ_self _

/-- The pure core of `parseTemplateVariables` (chart.go lines 146-154),
taking the values-file content as input: collect all captures into a Go
string set (`sets.NewString` + `Insert`) and return `strSet.List()`, the
lexicographically sorted list of the distinct captures. -/
def parseTemplateVariables (content : String) : List String :=
  List.insertionSort (fun a b => a ≤ b) (List.dedup (scanVars content.data))

/-! ## Variable-value merge on update -/

/-- Modelled from the spec: `models.Chart.GetVariableMap`, whose source file
is not among the inspected ones.  Per the spec's merge description it is the
key-to-variable lookup over the record's variable list, with Go map insertion
semantics: a later entry with the same key overwrites an earlier one, hence
the lookup searches the reversed list. -/
def getVariableMap (vars : List Variable) (k : String) : Option Variable :=
  vars.reverse.find? (fun v => v.key == k)

/-- The merge loop of `UpdateChartTemplate` (chart.go lines 215-226): one
entry per extracted name, in order; the value is carried over from the
current record when the key is present there and is the Go zero value `""`
otherwise. -/
def mergeVariables (cur : List Variable) (names : List String) : List Variable :=
  names.map (fun vName =>
    match getVariableMap cur vName with
    | some v => { key := vName, value := v.value }
    | none => { key := vName, value := "" })

/-! ## The operation flows

Collaborator calls are modelled by an environment of outcome-returning
functions; `chart.go` only inspects their success/error results. -/

/-- Outcomes of the external collaborators used by `chart.go`.  Each field
models the return value of one collaborator call. -/
structure Env where
  /-- `fs.DownloadFilesFromSource args`: the pulled artifact tree. -/
  pull : DownloadFromSourceArgs → Except String FileTree
  /-- `fs.SaveAndUploadFiles tree name localBase s3Base`: write-through of
  the tree to both tiers, keyed by the template name. -/
  persist : String → FileTree → Except String Unit
  /-- `os.MkdirTemp` in the hash task. -/
  mkTemp : Except String Unit
  /-- `fsutil.Tar tree tarball`: archive encoding of the tree. -/
  tar : FileTree → Except String Unit
  /-- `fsutil.Sha1` over the tarball: a content hash of the archive.  A
  function of the tree, since the archive encoding is deterministic. -/
  sha1 : FileTree → Except String String
  /-- `GetFileContent name "" values-file`: preload plus read of the
  designated values file from the local tier. -/
  readValuesFile : String → Except String String
  /-- `mongodb.NewChartColl().Create`. -/
  metaCreate : Chart → Except String Unit
  /-- `mongodb.NewChartColl().Update`. -/
  metaUpdate : Chart → Except String Unit
  /-- `mongodb.NewChartColl().Delete`. -/
  metaDelete : String → Except String Unit
  /-- `fs.DeleteArchivedFileFromS3`. -/
  s3Delete : String → Except String Unit

/-- Which of the two concurrent tasks of `processChartFromSource` wrote the
shared `err` variable last.  The Go code starts both tasks with `wg.Start`
and each assigns its failure to the same captured `err`; the final value is
whichever assignment happened later, which depends on scheduling. -/
inductive JoinOrder where
  | persistWroteLast
  | hashWroteLast
deriving DecidableEq

/-- The error of a collaborator outcome, `nil` on success. -/
def errOf {α : Type} : Except String α → Option String
  | .error e => some e
  | .ok _ => none

/-- The value of the shared `err` slot after both tasks finished: a failed
task overwrote the slot, and when both failed the later writer wins. -/
def sharedErrJoin : JoinOrder → Option String → Option String → Option String
  | .persistWroteLast, ep, eh => match ep with | some e => some e | none => eh
  | .hashWroteLast, ep, eh => match eh with | some e => some e | none => ep

/-- The encode-and-hash task (chart.go lines 313-341): temp dir, tar the
tree, hash the tarball.  The tarball file name is derived from
`args.Path` but does not influence the hash of the archive content. -/
def hashTask (env : Env) (tree : FileTree) : Except String String :=
  match env.mkTemp with
  | .error e => .error e
  | .ok _ =>
    match env.tar tree with
    | .error e => .error e
    | .ok _ => env.sha1 tree

/-- The trace entries produced by the persist task. -/
def persistEffects (r : Except String Unit) (t : FileTree) : List Effect :=
  match r with
  | .ok _ => [Effect.writeTiers t]
  | .error _ => [Effect.writeTiersFail]

/-- `processChartFromSource` (chart.go lines 282-350): pull the source,
then run the persist task and the hash task concurrently, join, and return
the sha1 or the value of the shared error slot. -/
def processChartFromSource (env : Env) (ord : JoinOrder) (name : String)
    (args : DownloadFromSourceArgs) : Except String String × List Effect :=
  match env.pull args with
  | .error e => (.error e, [.pull])
  | .ok tree =>
    let nm := if name = "" then filepathBase args.path else name
    let persistRes := env.persist nm tree
    let hashRes := hashTask env tree
    ((match sharedErrJoin ord (errOf persistRes) (errOf hashRes) with
      | some e => .error e
      | none => hashRes),
     .pull :: persistEffects persistRes tree)

/-- `parseTemplateVariables` (chart.go lines 141-155) as run inside the
flows: read the values file (wrapping a failure) and extract. -/
def parseTemplateVariablesE (env : Env) (name : String) : Except String (List String) :=
  match env.readValuesFile name with
  | .error e => .error ("failed to read values.yaml: " ++ e)
  | .ok content => .ok (parseTemplateVariables content)

/-- `AddChartTemplate` (chart.go lines 157-190).  `exist` is the result of
`mongodb.NewChartColl().Exist name`. -/
def AddChartTemplate (env : Env) (ord : JoinOrder) (exist : Bool) (name : String)
    (args : DownloadFromSourceArgs) : Except String Unit × List Effect :=
  if exist then
    (.error ("a chart template with name " ++ name ++ " is already existing"), [])
  else
    let p := processChartFromSource env ord name args
    match p.1 with
    | .error e => (.error e, p.2)
    | .ok sha1 =>
      match parseTemplateVariablesE env name with
      | .error e => (.error ("faild to prase variables: " ++ e), p.2 ++ [.parseVars])
      | .ok names =>
        let vars := names.map (fun v => ({ key := v, value := "" } : Variable))
        let c : Chart := { name := name, owner := args.owner, repo := args.repo,
                           path := args.path, branch := args.branch,
                           codeHostID := args.codehostID, sha1 := sha1, vars := vars }
        match env.metaCreate c with
        | .error e => (.error e, p.2 ++ [.parseVars])
        | .ok _ => (.ok (), p.2 ++ [.parseVars, .metaCreate c])

/-- `UpdateChartTemplate` (chart.go lines 192-238).  `cur` is the result of
`mongodb.NewChartColl().Get name`. -/
def UpdateChartTemplate (env : Env) (ord : JoinOrder) (cur : Except String Chart)
    (name : String) (args : DownloadFromSourceArgs) : Except String Unit × List Effect :=
  match cur with
  | .error e => (.error e, [])
  | .ok chart =>
    let p := processChartFromSource env ord name args
    match p.1 with
    | .error e => (.error e, p.2)
    | .ok sha1 =>
      if chart.sha1 = sha1 then (.ok (), p.2)
      else
        match parseTemplateVariablesE env name with
        | .error e => (.error ("faild to prase variables: " ++ e), p.2 ++ [.parseVars])
        | .ok names =>
          let vars := mergeVariables chart.vars names
          let c : Chart := { name := name, owner := args.owner, repo := args.repo,
                             path := args.path, branch := args.branch,
                             codeHostID := args.codehostID, sha1 := sha1, vars := vars }
          match env.metaUpdate c with
          | .error e => (.error e, p.2 ++ [.parseVars])
          | .ok _ => (.ok (), p.2 ++ [.parseVars, .metaUpdate c])

/-- `UpdateChartTemplateVariables` (chart.go lines 240-266).  The Go loop
`for _, variable := range variables` ranges over the freshly created empty
slice `variables` itself (not over the `args` parameter); Go evaluates the
range expression once, so the loop body never runs.  The fold below iterates
over that same initial empty slice, faithfully to the source. -/
def UpdateChartTemplateVariables (env : Env) (cur : Except String Chart) (name : String)
    (args : List Variable) : Except String Unit × List Effect :=
  match cur with
  | .error e => (.error e, [])
  | .ok chart =>
    let init : List Variable := []
    let vars := init.foldl (fun acc v => acc ++ [({ key := v.key, value := v.value } : Variable)]) init
    let c : Chart := { name := name, owner := chart.owner, repo := chart.repo,
                       path := chart.path, branch := chart.branch,
                       codeHostID := chart.codeHostID, sha1 := chart.sha1, vars := vars }
    match env.metaUpdate c with
    | .error e => (.error e, [])
    | .ok _ => (.ok (), [.metaUpdate c])

/-- `RemoveChartTemplate` (chart.go lines 268-280): delete the metadata
record (failure is fatal), then best-effort delete of the durable archive
(failure only logged as a warning). -/
def RemoveChartTemplate (env : Env) (name : String) : Except String Unit × List Effect :=
  match env.metaDelete name with
  | .error e => (.error e, [])
  | .ok _ =>
    match env.s3Delete name with
    | .error _ => (.ok (), [.metaDelete])
    | .ok _ => (.ok (), [.metaDelete, .durableDelete])

/-! ## Claims -/

/-- C1: the merged variable list of `UpdateChartTemplate` contains exactly
the newly extracted keys, in order; an entry whose key also occurs in the
old list keeps the old value, an entry whose key is new gets the empty
value; keys only in the old list are absent from the result. -/
theorem claim1_variable_merge_law (old : List Variable) (names : List String)
    (hkeys : (old.map Variable.key).Nodup) :
    ((mergeVariables old names).map Variable.key = names)
    ∧ (∀ w ∈ mergeVariables old names,
        (∀ v ∈ old, v.key = w.key → w.value = v.value)
        ∧ (w.key ∉ old.map Variable.key → w.value = ""))
    ∧ (∀ v ∈ old, v.key ∉ names → v.key ∉ (mergeVariables old names).map Variable.key) := by
  have hmap : ∀ ns : List String, (mergeVariables old ns).map Variable.key = ns := by
    intro ns
    induction ns with
    | nil => rfl
    | cons n ns ih =>
      have hk : Variable.key (match getVariableMap old n with
          | some v => ({ key := n, value := v.value } : Variable)
          | none => { key := n, value := "" }) = n := by
        cases getVariableMap old n <;> rfl
      simpa [mergeVariables, hk] using ih
  refine ⟨hmap names, ?_, ?_⟩
  · intro w hw
    rw [mergeVariables, List.mem_map] at hw
    obtain ⟨n, hn, hwn⟩ := hw
    cases hm : getVariableMap old n with
    | some v0 =>
      rw [hm] at hwn
      subst hwn
      have hfind := hm
      rw [getVariableMap] at hfind
      have hv0mem : v0 ∈ old := List.mem_reverse.mp (List.mem_of_find?_eq_some hfind)
      have hv0key : v0.key = n := by simpa using List.find?_some hfind
      constructor
      · intro v hv hkeq
        have hveq : v = v0 :=
          List.inj_on_of_nodup_map hkeys hv hv0mem (by simpa [hv0key] using hkeq)
        rw [hveq]
      · intro habs
        exact absurd (List.mem_map.mpr ⟨v0, hv0mem, hv0key⟩) habs
    | none =>
      rw [hm] at hwn
      subst hwn
      have hfind := hm
      rw [getVariableMap] at hfind
      constructor
      · intro v hv hkeq
        exfalso
        exact List.find?_eq_none.mp hfind v (List.mem_reverse.mpr hv) (by simp [hkeq])
      · intro _; rfl
  · intro v hv hnot hmem
    rw [hmap names] at hmem
    exact hnot hmem

/-- Witness for C1 at the spec's own example: old variables `{a:1, b:2}`,
new key set `{b, c}`. -/
theorem claim1_witness :
    ((([⟨"a", "1"⟩, ⟨"b", "2"⟩] : List Variable).map Variable.key).Nodup)
    ∧ (((mergeVariables [⟨"a", "1"⟩, ⟨"b", "2"⟩] ["b", "c"]).map Variable.key = ["b", "c"])
      ∧ (∀ w ∈ mergeVariables [⟨"a", "1"⟩, ⟨"b", "2"⟩] ["b", "c"],
          (∀ v ∈ ([⟨"a", "1"⟩, ⟨"b", "2"⟩] : List Variable), v.key = w.key → w.value = v.value)
          ∧ (w.key ∉ ([⟨"a", "1"⟩, ⟨"b", "2"⟩] : List Variable).map Variable.key → w.value = ""))
      ∧ (∀ v ∈ ([⟨"a", "1"⟩, ⟨"b", "2"⟩] : List Variable), v.key ∉ ["b", "c"] →
          v.key ∉ (mergeVariables [⟨"a", "1"⟩, ⟨"b", "2"⟩] ["b", "c"]).map Variable.key)) :=
  ⟨by decide, claim1_variable_merge_law [⟨"a", "1"⟩, ⟨"b", "2"⟩] ["b", "c"] (by decide)⟩

/-- C3: the extractor returns the de-duplicated, lexicographically sorted
list of the inner captures of the non-overlapping, non-greedy `$ ... $`
matches; each match decomposes the text at the shortest delimiter-free
inner capture. -/
theorem claim3_variable_extraction (content : String) :
    List.Sorted (fun a b => a ≤ b) (parseTemplateVariables content)
    ∧ (parseTemplateVariables content).Nodup
    ∧ (∀ x, x ∈ parseTemplateVariables content ↔ x ∈ scanVars content.data)
    ∧ (∀ cs inner rest, findClose cs = some (inner, rest) ↔
        (cs = inner ++ '$' :: rest ∧ '$' ∉ inner ∧ '\n' ∉ inner)) := by
  refine ⟨List.sorted_insertionSort _ _, ?_, ?_,
    fun cs inner rest => findClose_iff cs inner rest⟩
  · exact ((List.perm_insertionSort _ _).nodup_iff).mpr (List.nodup_dedup _)
  · intro x
    rw [parseTemplateVariables, (List.perm_insertionSort _ _).mem_iff, List.mem_dedup]

/-- Witness for C3 at the spec's example input `$name$`. -/
theorem claim3_witness : "name" ∈ parseTemplateVariables ("$name$") := by
  have h := (claim3_variable_extraction ("$name$")).2.2.1 ("name")
  have hs : scanVars ("$name$").data = ["name"] := by simp [scanVars, findClose]
  rw [h, hs]
  exact List.mem_singleton.mpr rfl

/-! ## Concrete fixtures for witnesses and counterexamples -/

/-- A sample pulled artifact tree. -/
def tree0 : FileTree := [("nginx/values.yaml", "replicas: $replicaCount$")]

/-- A stored record whose fingerprint is `"h"` and branch is `"main"`. -/
def chart0 : Chart :=
  { name := "nginx-chart", owner := "o", repo := "r", path := "charts/nginx",
    branch := "main", codeHostID := 1, sha1 := "h", vars := [⟨"replicaCount", "3"⟩] }

/-- Like `chart0` but with a stale fingerprint `"g"`. -/
def chart1 : Chart := { chart0 with sha1 := "g" }

/-- An update descriptor that switches the branch to `"dev"`. -/
def args0 : DownloadFromSourceArgs :=
  { codehostID := 1, owner := "o", repo := "r", path := "charts/nginx", branch := "dev" }

/-- An environment in which every collaborator call succeeds and the
content hash is `"h"`. -/
def env0 : Env :=
  { pull := fun _ => .ok tree0
    persist := fun _ _ => .ok ()
    mkTemp := .ok ()
    tar := fun _ => .ok ()
    sha1 := fun _ => .ok ("h")
    readValuesFile := fun _ => .ok ("replicas: $replicaCount$")
    metaCreate := fun _ => .ok ()
    metaUpdate := fun _ => .ok ()
    metaDelete := fun _ => .ok ()
    s3Delete := fun _ => .ok () }

/-- An environment in which the source pull fails. -/
def envPullFail : Env := { env0 with pull := fun _ => .error ("source fetch failed") }

/-- An environment in which both concurrent tasks fail: the persist task
with `"persist boom"`, the hash task with `"hash boom"`. -/
def envBothFail : Env :=
  { env0 with persist := fun _ _ => .error ("persist boom"), sha1 := fun _ => .error ("hash boom") }

/-- An environment in which deleting the metadata record fails. -/
def envRemoveFail : Env := { env0 with metaDelete := fun _ => .error ("record delete failed") }

/-- An environment in which the metadata record delete succeeds but the
durable store is unreachable. -/
def envRemoveOk : Env := { env0 with s3Delete := fun _ => .error ("s3 unreachable") }

/-- The storage state holding `chart0` and empty tiers. -/
def store0 : Store := { record := some chart0, localTier := none, durableTier := none }

/-- C2: when the ingest succeeds and the newly computed fingerprint equals
the stored one, the update returns success with no metadata write and no
variable re-extraction, while both tiers were refreshed by the ingest. -/
theorem claim2_fingerprint_short_circuit (env : Env) (ord : JoinOrder) (chart : Chart)
    (name : String) (args : DownloadFromSourceArgs) (tree : FileTree) (s : String)
    (hname : name ≠ "")
    (hpull : env.pull args = .ok tree)
    (hpersist : env.persist name tree = .ok ())
    (hhash : hashTask env tree = .ok s)
    (hsha : chart.sha1 = s) :
    UpdateChartTemplate env ord (.ok chart) name args = (.ok (), [.pull, .writeTiers tree])
    ∧ (∀ e ∈ (UpdateChartTemplate env ord (.ok chart) name args).2,
        isMetaWrite e = false ∧ e ≠ Effect.parseVars)
    ∧ Effect.writeTiers tree ∈ (UpdateChartTemplate env ord (.ok chart) name args).2 := by
  have hp : processChartFromSource env ord name args = (.ok s, [.pull, .writeTiers tree]) := by
    cases ord <;>
      simp [processChartFromSource, hpull, hname, hpersist, hhash, sharedErrJoin, errOf,
        persistEffects]
  refine ⟨?_, ?_, ?_⟩ <;>
    simp [UpdateChartTemplate, hp, hsha, isMetaWrite]

/-- Witness for C2: a fully successful re-ingest of unchanged content. -/
theorem claim2_witness :
    UpdateChartTemplate env0 .persistWroteLast (.ok chart0) "nginx-chart" args0
      = (.ok (), [.pull, .writeTiers tree0])
    ∧ (∀ e ∈ (UpdateChartTemplate env0 .persistWroteLast (.ok chart0) "nginx-chart" args0).2,
        isMetaWrite e = false ∧ e ≠ Effect.parseVars)
    ∧ Effect.writeTiers tree0
        ∈ (UpdateChartTemplate env0 .persistWroteLast (.ok chart0) "nginx-chart" args0).2 :=
  claim2_fingerprint_short_circuit env0 .persistWroteLast chart0 ("nginx-chart") args0 tree0 ("h")
    (by decide) rfl rfl rfl rfl

/-- C4 counterexample: with the same task results (persist fails with
`"persist boom"`, hash fails with `"hash boom"`), the reported error
depends on which task wrote the shared error slot last — the two arrival
orders give different outcomes, so error selection is not deterministic in
a fixed task order. -/
theorem claim4_counterexample :
    (processChartFromSource envBothFail .hashWroteLast ("nginx-chart") args0).1
      = Except.error ("hash boom")
    ∧ (processChartFromSource envBothFail .persistWroteLast ("nginx-chart") args0).1
      = Except.error ("persist boom")
    ∧ (processChartFromSource envBothFail .hashWroteLast ("nginx-chart") args0).1
      ≠ (processChartFromSource envBothFail .persistWroteLast ("nginx-chart") args0).1 := by
  refine ⟨rfl, rfl, fun h => ?_⟩
  have h2 : (Except.error ("hash boom") : Except String String) = Except.error ("persist boom") := h
  injection h2 with h3
  exact absurd h3 (by decide)

/-- C4 amended: when both concurrent tasks fail, the ingest reports the
error of whichever task wrote the shared slot last (last-writer-wins); the
reported error is always one of the two task errors, so the ingest does
fail, but which error surfaces depends on arrival order, not on a fixed
task order. -/
theorem claim4_last_writer_wins (env : Env) (ord : JoinOrder) (name : String)
    (args : DownloadFromSourceArgs) (tree : FileTree) (ep eh : String)
    (hname : name ≠ "")
    (hpull : env.pull args = .ok tree)
    (hpersist : env.persist name tree = .error ep)
    (hhash : hashTask env tree = .error eh) :
    (processChartFromSource env ord name args).1
      = Except.error (match ord with | .persistWroteLast => ep | .hashWroteLast => eh)
    ∧ ((processChartFromSource env ord name args).1 = Except.error ep
      ∨ (processChartFromSource env ord name args).1 = Except.error eh) := by
  cases ord <;>
    simp [processChartFromSource, hpull, hname, hpersist, hhash, sharedErrJoin, errOf,
      persistEffects]

/-- Witness for the amended C4. -/
theorem claim4_witness :
    (processChartFromSource envBothFail .persistWroteLast ("nginx-chart") args0).1
      = Except.error ("persist boom")
    ∧ ((processChartFromSource envBothFail .persistWroteLast ("nginx-chart") args0).1
        = Except.error ("persist boom")
      ∨ (processChartFromSource envBothFail .persistWroteLast ("nginx-chart") args0).1
        = Except.error ("hash boom")) :=
  claim4_last_writer_wins envBothFail .persistWroteLast ("nginx-chart") args0 tree0
    "persist boom" "hash boom" (by decide) rfl rfl rfl

/-- C5: when the source pull fails, both create and update abort with the
pull error after performing no tier write and no metadata write. -/
theorem claim5_pull_failure_atomic (env : Env) (ord : JoinOrder) (name : String)
    (args : DownloadFromSourceArgs) (chart : Chart) (e : String)
    (hpull : env.pull args = .error e) :
    AddChartTemplate env ord false name args = (.error e, [.pull])
    ∧ (∀ ef ∈ (AddChartTemplate env ord false name args).2,
        isTierWrite ef = false ∧ isMetaWrite ef = false)
    ∧ UpdateChartTemplate env ord (.ok chart) name args = (.error e, [.pull])
    ∧ (∀ ef ∈ (UpdateChartTemplate env ord (.ok chart) name args).2,
        isTierWrite ef = false ∧ isMetaWrite ef = false) := by
  have hp : processChartFromSource env ord name args = (.error e, [.pull]) := by
    simp [processChartFromSource, hpull]
  refine ⟨?_, ?_, ?_, ?_⟩ <;>
    simp [AddChartTemplate, UpdateChartTemplate, hp, isTierWrite, isMetaWrite]

/-- Witness for C5: a failing source pull. -/
theorem claim5_witness :
    AddChartTemplate envPullFail .persistWroteLast false ("nginx-chart") args0
      = (.error ("source fetch failed"), [.pull])
    ∧ (∀ ef ∈ (AddChartTemplate envPullFail .persistWroteLast false ("nginx-chart") args0).2,
        isTierWrite ef = false ∧ isMetaWrite ef = false)
    ∧ UpdateChartTemplate envPullFail .persistWroteLast (.ok chart0) "nginx-chart" args0
      = (.error ("source fetch failed"), [.pull])
    ∧ (∀ ef ∈ (UpdateChartTemplate envPullFail .persistWroteLast (.ok chart0)
          "nginx-chart" args0).2,
        isTierWrite ef = false ∧ isMetaWrite ef = false) :=
  claim5_pull_failure_atomic envPullFail .persistWroteLast ("nginx-chart") args0 chart0
    "source fetch failed" rfl

/-- C6: when the persist task or the hash task fails (the other possibly
succeeding), both create and update return an error, and neither writes
the metadata store, regardless of arrival order. -/
theorem claim6_tier_failure_blocks_metadata (env : Env) (ord : JoinOrder) (name : String)
    (args : DownloadFromSourceArgs) (chart : Chart) (tree : FileTree)
    (hname : name ≠ "")
    (hpull : env.pull args = .ok tree)
    (hfail : (∃ e, env.persist name tree = .error e) ∨ (∃ e, hashTask env tree = .error e)) :
    (∃ e, (AddChartTemplate env ord false name args).1 = Except.error e)
    ∧ (∀ ef ∈ (AddChartTemplate env ord false name args).2, isMetaWrite ef = false)
    ∧ (∃ e, (UpdateChartTemplate env ord (.ok chart) name args).1 = Except.error e)
    ∧ (∀ ef ∈ (UpdateChartTemplate env ord (.ok chart) name args).2,
        isMetaWrite ef = false) := by
  have hp : ∃ e tr, processChartFromSource env ord name args = (Except.error e, tr)
      ∧ ∀ ef ∈ tr, isMetaWrite ef = false := by
    rcases hper : env.persist name tree with e1 | u
    · cases ord with
      | persistWroteLast =>
        refine ⟨e1, [.pull, .writeTiersFail], ?_, by simp [isMetaWrite]⟩
        simp [processChartFromSource, hpull, hname, hper, sharedErrJoin, errOf, persistEffects]
      | hashWroteLast =>
        rcases hh : hashTask env tree with e2 | s2
        · refine ⟨e2, [.pull, .writeTiersFail], ?_, by simp [isMetaWrite]⟩
          simp [processChartFromSource, hpull, hname, hper, hh, sharedErrJoin, errOf,
            persistEffects]
        · refine ⟨e1, [.pull, .writeTiersFail], ?_, by simp [isMetaWrite]⟩
          simp [processChartFromSource, hpull, hname, hper, hh, sharedErrJoin, errOf,
            persistEffects]
    · rcases hh : hashTask env tree with e2 | s2
      · refine ⟨e2, [.pull, .writeTiers tree], ?_, by simp [isMetaWrite]⟩
        cases ord <;>
          simp [processChartFromSource, hpull, hname, hper, hh, sharedErrJoin, errOf,
            persistEffects]
      · exfalso
        rcases hfail with ⟨e, h⟩ | ⟨e, h⟩
        · rw [hper] at h; cases h
        · rw [hh] at h; cases h
  obtain ⟨e, tr, hp, htr⟩ := hp
  refine ⟨⟨e, ?_⟩, ?_, ⟨e, ?_⟩, ?_⟩ <;>
    simp [AddChartTemplate, UpdateChartTemplate, hp] <;> exact htr

/-- Witness for C6: both tasks fail. -/
theorem claim6_witness :
    (∃ e, (AddChartTemplate envBothFail .persistWroteLast false ("nginx-chart") args0).1
      = Except.error e)
    ∧ (∀ ef ∈ (AddChartTemplate envBothFail .persistWroteLast false ("nginx-chart") args0).2,
        isMetaWrite ef = false)
    ∧ (∃ e, (UpdateChartTemplate envBothFail .persistWroteLast (.ok chart0)
        "nginx-chart" args0).1 = Except.error e)
    ∧ (∀ ef ∈ (UpdateChartTemplate envBothFail .persistWroteLast (.ok chart0)
        "nginx-chart" args0).2, isMetaWrite ef = false) :=
  claim6_tier_failure_blocks_metadata envBothFail .persistWroteLast ("nginx-chart") args0
    chart0 tree0 (by decide) rfl (Or.inl ⟨"persist boom", rfl⟩)

/-- C7: creating under a name whose record already exists fails with the
already-exists error before any effect at all: the trace is empty, so the
source is not pulled, no tier is written, and any prior storage state is
left unmodified. -/
theorem claim7_duplicate_create (env : Env) (ord : JoinOrder) (name : String)
    (args : DownloadFromSourceArgs) (store : Store) :
    AddChartTemplate env ord true name args
      = (.error ("a chart template with name " ++ name ++ " is already existing"), [])
    ∧ applyEffects store (AddChartTemplate env ord true name args).2 = store :=
  ⟨rfl, rfl⟩

/-- C8: removal returns the metadata-store delete error when that delete
fails; once the record delete succeeds the overall result is success, no
matter how the durable-store delete turns out. -/
theorem claim8_removal_tolerance (env : Env) (name : String) :
    (∀ e, env.metaDelete name = .error e → RemoveChartTemplate env name = (.error e, []))
    ∧ (env.metaDelete name = .ok () →
        (RemoveChartTemplate env name).1 = .ok ()
        ∧ Effect.metaDelete ∈ (RemoveChartTemplate env name).2) := by
  constructor
  · intro e he
    simp [RemoveChartTemplate, he]
  · intro hok
    rcases hs : env.s3Delete name with e2 | u <;> simp [RemoveChartTemplate, hok, hs]

/-- Witness for C8: a failing record delete aborts; a successful record
delete with an unreachable durable store still reports success. -/
theorem claim8_witness :
    RemoveChartTemplate envRemoveFail ("nginx-chart") = (.error ("record delete failed"), [])
    ∧ ((RemoveChartTemplate envRemoveOk ("nginx-chart")).1 = .ok ()
      ∧ Effect.metaDelete ∈ (RemoveChartTemplate envRemoveOk ("nginx-chart")).2) :=
  ⟨(claim8_removal_tolerance envRemoveFail ("nginx-chart")).1 ("record delete failed") rfl,
    (claim8_removal_tolerance envRemoveOk ("nginx-chart")).2 rfl⟩

/-- C9 counterexample: an update that changes the branch from `"main"` to
`"dev"` but whose pulled content hashes to the stored fingerprint `"h"`
returns success via the short-circuit, yet the stored record — descriptor
included — is left untouched, so the stored descriptor does not equal the
one passed in. -/
theorem claim9_counterexample :
    (UpdateChartTemplate env0 .persistWroteLast (.ok chart0) "nginx-chart" args0).1 = .ok ()
    ∧ (applyEffects store0
        (UpdateChartTemplate env0 .persistWroteLast (.ok chart0) "nginx-chart" args0).2).record
      = some chart0
    ∧ chart0.branch ≠ args0.branch :=
  ⟨rfl, rfl, by decide⟩

/-- C9 amended: on every update that reaches the metadata write (the new
fingerprint differs from the stored one) and succeeds, the stored record's
descriptor equals the descriptor passed to the update; on the
fingerprint-equal path the update succeeds without touching the record, so
the previous descriptor persists. -/
theorem claim9_descriptor_replacement (env : Env) (ord : JoinOrder) (chart : Chart)
    (name : String) (args : DownloadFromSourceArgs) (tree : FileTree) (s content : String)
    (store : Store)
    (hname : name ≠ "")
    (hpull : env.pull args = .ok tree)
    (hpersist : env.persist name tree = .ok ())
    (hhash : hashTask env tree = .ok s)
    (hne : chart.sha1 ≠ s)
    (hread : env.readValuesFile name = .ok content)
    (hupd : ∀ c, env.metaUpdate c = .ok ()) :
    (UpdateChartTemplate env ord (.ok chart) name args).1 = .ok ()
    ∧ ∃ c : Chart,
        (applyEffects store
          (UpdateChartTemplate env ord (.ok chart) name args).2).record = some c
        ∧ c.owner = args.owner ∧ c.repo = args.repo ∧ c.path = args.path
        ∧ c.branch = args.branch ∧ c.codeHostID = args.codehostID
        ∧ c.name = name ∧ c.sha1 = s := by
  have hp : processChartFromSource env ord name args = (.ok s, [.pull, .writeTiers tree]) := by
    cases ord <;>
      simp [processChartFromSource, hpull, hname, hpersist, hhash, sharedErrJoin, errOf,
        persistEffects]
  have hu : UpdateChartTemplate env ord (.ok chart) name args
      = (.ok (), [.pull, .writeTiers tree, .parseVars,
          .metaUpdate
            { name := name, owner := args.owner, repo := args.repo, path := args.path,
              branch := args.branch, codeHostID := args.codehostID, sha1 := s,
              vars := mergeVariables chart.vars (parseTemplateVariables content) }]) := by
    simp [UpdateChartTemplate, hp, hne, parseTemplateVariablesE, hread, hupd]
  refine ⟨by rw [hu],
    ⟨{ name := name, owner := args.owner, repo := args.repo, path := args.path,
       branch := args.branch, codeHostID := args.codehostID, sha1 := s,
       vars := mergeVariables chart.vars (parseTemplateVariables content) },
      ?_, rfl, rfl, rfl, rfl, rfl, rfl, rfl⟩⟩
  rw [hu]
  simp [applyEffects, applyEffect]

/-- Witness for the amended C9: a stale stored fingerprint `"g"` forces
the metadata write, which replaces the descriptor. -/
theorem claim9_witness :
    (UpdateChartTemplate env0 .persistWroteLast (.ok chart1) "nginx-chart" args0).1 = .ok ()
    ∧ ∃ c : Chart,
        (applyEffects store0
          (UpdateChartTemplate env0 .persistWroteLast (.ok chart1) "nginx-chart" args0).2).record
          = some c
        ∧ c.owner = args0.owner ∧ c.repo = args0.repo ∧ c.path = args0.path
        ∧ c.branch = args0.branch ∧ c.codeHostID = args0.codehostID
        ∧ c.name = "nginx-chart" ∧ c.sha1 = "h" :=
  claim9_descriptor_replacement env0 .persistWroteLast chart1 ("nginx-chart") args0 tree0 ("h")
    ("replicas: $replicaCount$") store0 (by decide) rfl rfl rfl (by decide) rfl (fun _ => rfl)

/-- C10: whatever non-empty variable list is passed in,
`UpdateChartTemplateVariables` writes a record whose variable list is empty
(the Go loop ranges over its own freshly created empty slice instead of the
argument), with every other field copied unchanged from the existing
record; the call result does not depend on the argument at all. -/
theorem claim10_variables_update_ignores_argument (env : Env) (chart : Chart) (name : String)
    (args : List Variable) (hargs : args ≠ []) :
    (UpdateChartTemplateVariables env (.ok chart) name args).1
      = env.metaUpdate
          { name := name, owner := chart.owner, repo := chart.repo, path := chart.path,
            branch := chart.branch, codeHostID := chart.codeHostID, sha1 := chart.sha1,
            vars := [] }
    ∧ (∀ ef ∈ (UpdateChartTemplateVariables env (.ok chart) name args).2,
        ef = Effect.metaUpdate
          { name := name, owner := chart.owner, repo := chart.repo, path := chart.path,
            branch := chart.branch, codeHostID := chart.codeHostID, sha1 := chart.sha1,
            vars := [] })
    ∧ (∀ args2 : List Variable,
        UpdateChartTemplateVariables env (.ok chart) name args2
          = UpdateChartTemplateVariables env (.ok chart) name args) := by
  rcases hm : env.metaUpdate
      { name := name, owner := chart.owner, repo := chart.repo, path := chart.path,
        branch := chart.branch, codeHostID := chart.codeHostID, sha1 := chart.sha1,
        vars := [] } with e | u <;>
    refine ⟨?_, ?_, ?_⟩ <;>
      simp [UpdateChartTemplateVariables, hm]

/-- Witness for C10 at a non-empty argument list. -/
theorem claim10_witness :
    (UpdateChartTemplateVariables env0 (.ok chart0) "nginx-chart" [⟨"k", "v"⟩]).1
      = env0.metaUpdate
          { name := "nginx-chart", owner := chart0.owner, repo := chart0.repo,
            path := chart0.path, branch := chart0.branch, codeHostID := chart0.codeHostID,
            sha1 := chart0.sha1, vars := [] }
    ∧ (∀ ef ∈ (UpdateChartTemplateVariables env0 (.ok chart0) "nginx-chart" [⟨"k", "v"⟩]).2,
        ef = Effect.metaUpdate
          { name := "nginx-chart", owner := chart0.owner, repo := chart0.repo,
            path := chart0.path, branch := chart0.branch, codeHostID := chart0.codeHostID,
            sha1 := chart0.sha1, vars := [] })
    ∧ (∀ args2 : List Variable,
        UpdateChartTemplateVariables env0 (.ok chart0) "nginx-chart" args2
          = UpdateChartTemplateVariables env0 (.ok chart0) "nginx-chart" [⟨"k", "v"⟩]) :=
  claim10_variables_update_ignores_argument env0 chart0 ("nginx-chart") [⟨"k", "v"⟩] (by decide)

end Zadig
